import Mathlib

/-!
Shallow embedding of the concurrency/state-machine core of the
snakepit_clicker repository (files `src/click_worker.py` and
`src/hotkey_listener.py`), together with theorems settling the
specification claims about it.

Python sets of strings are modelled as `Finset String`; Python `None`
returns as `Option`; a Python `raise` as `Except.error`.  Key symbols in
this program are ASCII, so Python `str.lower` is modelled as the ASCII
letter mapping `pyLower`.
-/

namespace SnakePit

/-- ASCII model of Python `str.lower` on a single character: each of the
26 uppercase ASCII letters maps to its lowercase form, every other
character is unchanged. -/
def pyCharLower (c : Char) : Char :=
  match c with
  | 'A' => 'a' | 'B' => 'b' | 'C' => 'c' | 'D' => 'd' | 'E' => 'e'
  | 'F' => 'f' | 'G' => 'g' | 'H' => 'h' | 'I' => 'i' | 'J' => 'j'
  | 'K' => 'k' | 'L' => 'l' | 'M' => 'm' | 'N' => 'n' | 'O' => 'o'
  | 'P' => 'p' | 'Q' => 'q' | 'R' => 'r' | 'S' => 's' | 'T' => 't'
  | 'U' => 'u' | 'V' => 'v' | 'W' => 'w' | 'X' => 'x' | 'Y' => 'y'
  | 'Z' => 'z'
  | other => other

/-- ASCII model of Python `str.lower` (used for `key.name.lower()`,
`key.char.lower()` and `key_value.lower()` in the source). -/
def pyLower (s : String) : String := ⟨s.data.map pyCharLower⟩

/-- Is the character an uppercase ASCII letter. -/
def isUpperA (c : Char) : Bool := decide ('A' ≤ c) && decide (c ≤ 'Z')

/-- Is the character a lowercase ASCII letter. -/
def isLowerA (c : Char) : Bool := decide ('a' ≤ c) && decide (c ≤ 'z')

/-- ASCII model of Python `str.islower`: the string has at least one
cased character, and no cased character is uppercase. -/
def pyIsLower (s : String) : Bool :=
  (s.data.any fun c => isLowerA c || isUpperA c) &&
  (s.data.all fun c => !isUpperA c)

/-- The 26 uppercase ASCII letters. -/
def upperChars : List Char :=
  ['A', 'B', 'C', 'D', 'E', 'F', 'G', 'H', 'I', 'J', 'K', 'L', 'M',
   'N', 'O', 'P', 'Q', 'R', 'S', 'T', 'U', 'V', 'W', 'X', 'Y', 'Z']

/-- Does the string contain at least one uppercase ASCII letter. -/
def hasUpperA (s : String) : Bool :=
  s.data.any fun c => decide (c ∈ upperChars)

/-- The attribute names of `pynput.keyboard.Key` (the named special
keys); `hasattr(keyboard.Key, x)` in the source is modelled as
membership of `x` in this list. -/
def keyNames : List String :=
  ["alt", "alt_l", "alt_r", "alt_gr", "backspace", "caps_lock",
   "cmd", "cmd_l", "cmd_r", "ctrl", "ctrl_l", "ctrl_r", "delete",
   "down", "end", "enter", "esc", "f1", "f2", "f3", "f4", "f5", "f6",
   "f7", "f8", "f9", "f10", "f11", "f12", "f13", "f14", "f15", "f16",
   "f17", "f18", "f19", "f20", "home", "insert", "left", "media_next",
   "media_play_pause", "media_previous", "media_volume_down",
   "media_volume_mute", "media_volume_up", "menu", "num_lock",
   "page_down", "page_up", "pause", "print_screen", "right",
   "scroll_lock", "shift", "shift_l", "shift_r", "space", "tab", "up"]

/-!
### `click_worker.AutoClicker` — sequential state

`stopSet` is the `_stop_event` of the `AutoClicker` singleton and
`running` counts the live worker threads.  `__init__` calls
`self._stop_event.set()` and starts no thread, giving `initAC`.
-/

/-- State of the `AutoClicker` singleton: `_stop_event` and the number
of live worker threads. -/
structure ACState where
  stopSet : Bool
  running : Nat
deriving DecidableEq

/-- Model of `AutoClicker.__init__`: `_stop_event` is set and no worker thread
runs. -/
def initAC : ACState := ⟨true, 0⟩

/-- Model of `AutoClicker.start_clicker`: if `_stop_event` is set, clear it and
start a fresh worker thread; otherwise do nothing. -/
def start_clicker (s : ACState) : ACState :=
  if s.stopSet then ⟨false, s.running + 1⟩ else s

/-- Model of `AutoClicker.stop_clicker`: if `_stop_event` is not set, set it and
join the worker thread (which observes the event at the top of its loop
and exits, so afterwards no worker thread is live); otherwise do
nothing. -/
def stop_clicker (s : ACState) : ACState :=
  if !s.stopSet then ⟨true, 0⟩ else s

/-- Model of `AutoClicker.is_clicker_alive`: the body unconditionally raises
`NotImplementedError("clicker alive is faulty, needs better handling!")`;
the `return self._stop_event.is_set()` after the raise is unreachable. -/
def is_clicker_alive (_s : ACState) : Except String Bool :=
  Except.error "clicker alive is faulty, needs better handling!"

/-- Module-level `is_clicker_alive` wrapper in `click_worker.py`: it
unconditionally raises `NotImplementedError()`; the call
`AutoClicker().is_clicker_alive()` after the raise is unreachable. -/
def is_clicker_alive_module : Except String Bool :=
  Except.error "NotImplementedError"

/-!
### `AutoClicker._click_worker` — small-step trace model

The worker thread runs
`while not self._stop_event.is_set(): wait; press; wait(5); release`.
`WPhase.top` is the loop head (where the stop event is polled),
`WPhase.body` is inside one click cycle, `WPhase.exited` is after the
loop.  One `clickCycle` step performs the whole press/release cycle and
bumps the click counter (the observable click side effect).
-/

/-- Program counter of the worker thread. -/
inductive WPhase
  | top
  | body
  | exited
deriving DecidableEq

/-- Trace state of one worker thread: the stop event, the program
counter, and the number of click side effects performed so far. -/
structure WState where
  stopFlag : Bool
  phase : WPhase
  clicks : Nat
deriving DecidableEq

/-- One step of the worker thread of `_click_worker`:
at the loop head it polls the stop event and either exits or enters the
body; the body performs one click cycle and returns to the loop head. -/
inductive WStep : WState → WState → Prop
  | exitLoop (s : WState) : s.phase = WPhase.top → s.stopFlag = true →
      WStep s { s with phase := WPhase.exited }
  | enterBody (s : WState) : s.phase = WPhase.top → s.stopFlag = false →
      WStep s { s with phase := WPhase.body }
  | clickCycle (s : WState) : s.phase = WPhase.body →
      WStep s { s with phase := WPhase.top, clicks := s.clicks + 1 }

/-- Finitely many worker steps. -/
def WSteps : WState → WState → Prop := Relation.ReflTransGen WStep

/-!
### `hotkey_listener.HotkeyListener`

A pynput key object is either a `keyboard.Key` member (a named special
key) or a `KeyCode` whose `char` may be `None`; the callback argument
itself may be `None`, hence `Option PKey`.
-/

/-- A pynput key: a named special key (`keyboard.Key`) or a key code
with an optional character. -/
inductive PKey
  | special (name : String)
  | code (char : Option String)
deriving DecidableEq

/-- A raw keyboard event delivered to the listener callbacks. -/
inductive KEvent
  | push (k : Option PKey)
  | release (k : Option PKey)
deriving DecidableEq

/-- Observable actions of `__check_hotkeys`: calls to the module-level
`stop_clicker()` / `start_clicker()` and to `__exit_program()`. -/
inductive Effect
  | stopClick
  | startClick
  | exitProg
deriving DecidableEq

/-- State of the `HotkeyListener` singleton together with the
`AutoClicker` it drives: the currently pressed keys, the three
validated combos, the mirrored `_clicker_alive` flag, the listener
shutdown event `_stop_event`, and the worker state. -/
structure ListenerState where
  held : Finset String
  exitCombo : Finset String
  startCombo : Finset String
  stopCombo : Finset String
  clickerAlive : Bool
  shutdown : Bool
  worker : ACState
deriving DecidableEq

/-- Model of `HotkeyListener._get_key_value`: `None` stays `None`; a named
special key yields `key.name.lower()`; a key code yields
`key.char.lower()` when `char` is present, otherwise `None`. -/
def get_key_value : Option PKey → Option String
  | none => none
  | some (PKey.special name) => some (pyLower name)
  | some (PKey.code none) => none
  | some (PKey.code (some c)) => some (pyLower c)

/-- The combo test of `__check_hotkeys`:
`all([k in self._current_pressed_keys for k in combo])`. -/
def matchesCombo (held combo : Finset String) : Bool :=
  decide (∀ k ∈ combo, k ∈ held)

/-- Model of `HotkeyListener.__exit_program`: sets the listener shutdown event. -/
def exit_program (s : ListenerState) : ListenerState :=
  { s with shutdown := true }

/-- Model of `HotkeyListener.__check_hotkeys`: evaluates the three combos against
the held keys; on an exit match it stops the clicker if the alive flag
is set, clears the flag, and signals shutdown, returning without testing
the other branches; otherwise the stop branch runs when the alive flag
is set and the start branch when it is clear.  The returned list records
the `stop_clicker` / `start_clicker` / `__exit_program` calls in
order. -/
def check_hotkeys (s : ListenerState) : ListenerState × List Effect :=
  let do_exit := matchesCombo s.held s.exitCombo
  let do_stop := matchesCombo s.held s.stopCombo
  let do_start := matchesCombo s.held s.startCombo
  if do_exit then
    if s.clickerAlive then
      (exit_program { s with worker := stop_clicker s.worker, clickerAlive := false },
       [Effect.stopClick, Effect.exitProg])
    else
      (exit_program s, [Effect.exitProg])
  else
    if s.clickerAlive then
      if do_stop then
        ({ s with worker := stop_clicker s.worker, clickerAlive := false },
         [Effect.stopClick])
      else (s, [])
    else
      if do_start then
        ({ s with worker := start_clicker s.worker, clickerAlive := true },
         [Effect.startClick])
      else (s, [])

/-- Model of `HotkeyListener._key_push`: a `None` key or an unresolvable or empty
symbol is ignored; otherwise the normalized symbol is added to the held
set and `__check_hotkeys` runs.  The second component is the value the
handler returns to its caller — Python returns `None` on every path. -/
def key_push (s : ListenerState) (key : Option PKey) :
    ListenerState × Option String :=
  match key with
  | none => (s, none)
  | some k =>
    match get_key_value (some k) with
    | none => (s, none)
    | some v =>
      if v = "" then (s, none)
      else ((check_hotkeys { s with held := insert v s.held }).1, none)

/-- Model of `HotkeyListener._key_release`: a `None` key is ignored; otherwise
`discard` removes the normalized symbol from the held set (a `None`
symbol is discarded from a set of strings, a no-op). -/
def key_release (s : ListenerState) (key : Option PKey) : ListenerState :=
  match key with
  | none => s
  | some k =>
    match get_key_value (some k) with
    | none => s
    | some v => { s with held := s.held.erase v }

/-- Dispatch of one raw key event to the matching listener callback. -/
def evStep (st : ListenerState) (e : KEvent) : ListenerState :=
  match e with
  | KEvent.push k => (key_push st k).1
  | KEvent.release k => key_release st k

/-- Processing a finite sequence of raw key events through the two
listener callbacks. -/
def processEvents (s : ListenerState) (evs : List KEvent) : ListenerState :=
  evs.foldl evStep s

/-- How one event updates the last recorded push/release action for the
symbol `v`. -/
def touchStep (v : String) (acc : Option Bool) (e : KEvent) : Option Bool :=
  match e with
  | KEvent.push k => if get_key_value k = some v then some true else acc
  | KEvent.release k => if get_key_value k = some v then some false else acc

/-- The last push/release action among the events that resolve to the
symbol `v`: `some true` when it was a push, `some false` when it was a
release, `none` when no event touches `v`. -/
def lastTouch (v : String) (evs : List KEvent) : Option Bool :=
  evs.foldl (touchStep v) none

/-- The validation error, if any, that `__validate_keys` raises for one
key string: a single character must be lowercase (`str.islower`), a
multi-character name must be an attribute of `keyboard.Key` after
lowercasing. -/
def key_error (k : String) : Option String :=
  if k.length = 1 && !pyIsLower k then
    some "Key is not lower case."
  else if k.length != 1 && !(keyNames.contains (pyLower k)) then
    some "Key is not a valid special key."
  else none

/-- Model of `HotkeyListener.__validate_keys`: raises the first validation error
of the key tuple, otherwise returns `set(key_tuple)` — keeping each
symbol with its original casing. -/
def validate_keys (keyTuple : List String) : Except String (Finset String) :=
  match keyTuple.findSome? key_error with
  | some msg => Except.error msg
  | none => Except.ok keyTuple.toFinset

/-- Sample listener state for the exit-priority scenario: the held keys
satisfy the exit combo and the stop/start combo at once, the clicker is
running. -/
def exitPriorityState : ListenerState :=
  ⟨{"shift", "e", "s"}, {"shift", "e"}, {"shift", "s"}, {"shift", "s"},
   true, false, ⟨false, 1⟩⟩

/-- Sample listener state with empty held set and combos that match
nothing relevant. -/
def idleState : ListenerState :=
  ⟨∅, {"q", "w"}, {"q", "r"}, {"q", "t"}, false, false, ⟨true, 0⟩⟩

/-- Sample listener state whose exit combo is the empty set. -/
def emptyComboState : ListenerState :=
  ⟨∅, ∅, {"q"}, {"q"}, false, false, ⟨true, 0⟩⟩

/-- Sample listener state after the exit combo has fired (shutdown flag
set) while the held keys satisfy the start combo but not the exit
combo. -/
def afterExitState : ListenerState :=
  ⟨{"shift", "s"}, {"shift", "e"}, {"shift", "s"}, {"shift", "x"},
   false, true, ⟨true, 0⟩⟩

/-- Sample listener state in which the key a is already held. -/
def pushedState : ListenerState :=
  ⟨{"a"}, {"q", "w"}, {"q", "r"}, {"q", "t"}, false, false, ⟨true, 0⟩⟩

/-!
### Helper lemmas
-/

theorem matchesCombo_iff (held combo : Finset String) :
    matchesCombo held combo = true ↔ ∀ k ∈ combo, k ∈ held := by
  simp [matchesCombo]

theorem check_hotkeys_held (s : ListenerState) :
    (check_hotkeys s).1.held = s.held := by
  simp only [check_hotkeys, exit_program]
  repeat first | split | rfl

theorem pyCharLower_not_upper (c : Char) :
    decide (pyCharLower c ∈ upperChars) = false := by
  unfold pyCharLower
  split <;> first | decide | simp_all [upperChars]

theorem pyLower_ne_of_hasUpper (w : String) (hw : hasUpperA w = true)
    (t : String) : pyLower t ≠ w := by
  intro h
  rcases List.any_eq_true.mp hw with ⟨c, hc, hcU⟩
  have hd : t.data.map pyCharLower = w.data := congrArg String.data h
  rw [← hd] at hc
  rcases List.mem_map.mp hc with ⟨d, -, hdc⟩
  rw [← hdc, pyCharLower_not_upper d] at hcU
  exact Bool.false_ne_true hcU

theorem findSome_key_error_none (l : List String)
    (h : ∀ x ∈ l, key_error x = none) : l.findSome? key_error = none := by
  induction l with
  | nil => rfl
  | cons a as ih =>
    rw [List.findSome?_cons, h a (List.mem_cons_self a as)]
    exact ih fun x hx => h x (List.mem_cons_of_mem a hx)

theorem get_key_value_lower :
    ∀ (k : Option PKey) (v : String),
      get_key_value k = some v → ∃ t, v = pyLower t
  | none, _, h => by simp [get_key_value] at h
  | some (PKey.special name), _, h =>
      ⟨name, (Option.some.inj h).symm⟩
  | some (PKey.code none), _, h => by simp [get_key_value] at h
  | some (PKey.code (some c)), _, h =>
      ⟨c, (Option.some.inj h).symm⟩

theorem key_push_held_none (s : ListenerState) (key : Option PKey)
    (hg : get_key_value key = none) : (key_push s key).1.held = s.held := by
  cases key with
  | none => rfl
  | some k => simp [key_push, hg]

theorem key_push_held_some (s : ListenerState) (key : Option PKey)
    (v : String) (hg : get_key_value key = some v) :
    (key_push s key).1.held =
      if v = "" then s.held else insert v s.held := by
  cases key with
  | none => simp [get_key_value] at hg
  | some k =>
    by_cases hv : v = ""
    · simp [key_push, hg, hv]
    · simp [key_push, hg, hv, check_hotkeys_held]

theorem key_release_held_none (s : ListenerState) (key : Option PKey)
    (hg : get_key_value key = none) : (key_release s key).held = s.held := by
  cases key with
  | none => rfl
  | some k => simp [key_release, hg]

theorem key_release_held_some (s : ListenerState) (key : Option PKey)
    (v : String) (hg : get_key_value key = some v) :
    (key_release s key).held = s.held.erase v := by
  cases key with
  | none => simp [get_key_value] at hg
  | some k => simp [key_release, hg]


theorem mem_key_push (v : String) (hv : v ≠ "") (s : ListenerState)
    (key : Option PKey) :
    v ∈ (key_push s key).1.held ↔
      (get_key_value key = some v ∨ v ∈ s.held) := by
  cases hg : get_key_value key with
  | none => rw [key_push_held_none s key hg]; simp
  | some w =>
    rw [key_push_held_some s key w hg]
    by_cases hw : w = ""
    · rw [if_pos hw]
      simp only [Option.some.injEq]
      constructor
      · exact Or.inr
      · rintro (h | h)
        · rw [hw] at h; exact absurd h.symm hv
        · exact h
    · rw [if_neg hw]
      simp only [Finset.mem_insert, Option.some.injEq]
      constructor
      · rintro (h | h)
        · exact Or.inl h.symm
        · exact Or.inr h
      · rintro (h | h)
        · exact Or.inl h.symm
        · exact Or.inr h

theorem mem_key_release (v : String) (s : ListenerState) (key : Option PKey) :
    v ∈ (key_release s key).held ↔
      (v ∈ s.held ∧ get_key_value key ≠ some v) := by
  cases hg : get_key_value key with
  | none => rw [key_release_held_none s key hg]; simp
  | some w =>
    rw [key_release_held_some s key w hg]
    simp only [Finset.mem_erase, Option.some.injEq, ne_eq]
    constructor
    · rintro ⟨h1, h2⟩
      exact ⟨h2, fun h => h1 h.symm⟩
    · rintro ⟨h1, h2⟩
      exact ⟨fun h => h2 h.symm, h1⟩

theorem evStep_mem (v : String) (hv : v ≠ "") (s : ListenerState)
    (acc : Option Bool) (e : KEvent)
    (hinv : v ∈ s.held ↔ acc = some true) :
    v ∈ (evStep s e).held ↔ touchStep v acc e = some true := by
  cases e with
  | push k =>
    show v ∈ (key_push s k).1.held ↔ _
    rw [mem_key_push v hv s k]
    by_cases hg : get_key_value k = some v
    · simp [touchStep, hg]
    · simp [touchStep, hg, hinv]
  | release k =>
    show v ∈ (key_release s k).held ↔ _
    rw [mem_key_release v s k]
    by_cases hg : get_key_value k = some v
    · simp [touchStep, hg]
    · simp [touchStep, hg, hinv]

theorem processEvents_mem_aux (v : String) (hv : v ≠ "") :
    ∀ (evs : List KEvent) (s : ListenerState) (acc : Option Bool),
      (v ∈ s.held ↔ acc = some true) →
      (v ∈ (List.foldl evStep s evs).held ↔
        List.foldl (touchStep v) acc evs = some true)
  | [], _, _, hinv => hinv
  | e :: rest, s, acc, hinv =>
      processEvents_mem_aux v hv rest (evStep s e) (touchStep v acc e)
        (evStep_mem v hv s acc e hinv)

theorem empty_not_mem_evStep (s : ListenerState) (e : KEvent)
    (h : "" ∉ s.held) : "" ∉ (evStep s e).held := by
  cases e with
  | push k =>
    show "" ∉ (key_push s k).1.held
    intro hmem
    cases hg : get_key_value k with
    | none => rw [key_push_held_none s k hg] at hmem; exact h hmem
    | some w =>
      rw [key_push_held_some s k w hg] at hmem
      by_cases hw : w = ""
      · rw [if_pos hw] at hmem; exact h hmem
      · rw [if_neg hw] at hmem
        rcases Finset.mem_insert.mp hmem with h1 | h1
        · exact hw h1.symm
        · exact h h1
  | release k =>
    show "" ∉ (key_release s k).held
    intro hmem
    exact h ((mem_key_release "" s k).mp hmem).1

theorem empty_not_mem_processEvents :
    ∀ (evs : List KEvent) (s : ListenerState),
      "" ∉ s.held → "" ∉ (List.foldl evStep s evs).held
  | [], _, h => h
  | e :: rest, s, h =>
      empty_not_mem_processEvents rest (evStep s e) (empty_not_mem_evStep s e h)

theorem held_lower_evStep (s : ListenerState) (e : KEvent) (v : String)
    (h : v ∈ (evStep s e).held) : v ∈ s.held ∨ ∃ t, v = pyLower t := by
  cases e with
  | push k =>
    have h2 : v ∈ (key_push s k).1.held := h
    cases hg : get_key_value k with
    | none => rw [key_push_held_none s k hg] at h2; exact Or.inl h2
    | some w =>
      rw [key_push_held_some s k w hg] at h2
      by_cases hw : w = ""
      · rw [if_pos hw] at h2; exact Or.inl h2
      · rw [if_neg hw] at h2
        rcases Finset.mem_insert.mp h2 with h3 | h3
        · subst h3
          exact Or.inr (get_key_value_lower k _ hg)
        · exact Or.inl h3
  | release k =>
    have h2 : v ∈ (key_release s k).held := h
    cases hg : get_key_value k with
    | none => rw [key_release_held_none s k hg] at h2; exact Or.inl h2
    | some w =>
      rw [key_release_held_some s k w hg] at h2
      exact Or.inl (Finset.mem_erase.mp h2).2

theorem held_lower_processEvents :
    ∀ (evs : List KEvent) (s : ListenerState) (v : String),
      v ∈ (List.foldl evStep s evs).held →
        v ∈ s.held ∨ ∃ t, v = pyLower t
  | [], _, _, h => Or.inl h
  | e :: rest, s, v, h => by
      rcases held_lower_processEvents rest (evStep s e) v h with h1 | h1
      · exact held_lower_evStep s e v h1
      · exact Or.inr h1

theorem key_push_snd (s : ListenerState) (key : Option PKey) :
    (key_push s key).2 = none := by
  cases key with
  | none => rfl
  | some k =>
    cases hg : get_key_value (some k) with
    | none => simp [key_push, hg]
    | some v => by_cases hv : v = "" <;> simp [key_push, hg, hv]

theorem wstep_not_exited (s s2 : WState) (hs : WStep s s2) :
    s.phase ≠ WPhase.exited := by
  cases hs <;> simp_all


/-!
### Claim theorems
-/

/-- Claim C1: the claim demands that every call of the liveness
introspection performs a well-defined read of WorkerState and returns a
bool and that no call raises a not-implemented error; the source instead
raises unconditionally in both the method and the module-level wrapper,
which this theorem records (supporting the code-bug verdict). -/
theorem c1_liveness_stub_raises :
    (∀ s : ACState, is_clicker_alive s =
        Except.error "clicker alive is faulty, needs better handling!") ∧
    is_clicker_alive_module = Except.error "NotImplementedError" :=
  ⟨fun _ => rfl, rfl⟩

/-- Claim C2: the combo match returns true iff every symbol of the combo
is held (extra held keys still match), and evaluation never mutates the
held set — in the embedding the matcher is a pure function, and the
whole hotkey evaluation leaves the held set unchanged. -/
theorem c2_matches_subset :
    (∀ held combo : Finset String,
       matchesCombo held combo = true ↔ ∀ k ∈ combo, k ∈ held) ∧
    (∀ s : ListenerState, (check_hotkeys s).1.held = s.held) :=
  ⟨matchesCombo_iff, check_hotkeys_held⟩

/-- Claim C3: when the held keys satisfy the exit combo, the exit branch
takes effect — the worker is stopped when the alive flag is set, the
flag is cleared, then the shutdown flag is set — and no start action and
no stop-branch action occurs, even if the stop or start combo is
simultaneously satisfied. -/
theorem c3_exit_priority (s : ListenerState)
    (hexit : matchesCombo s.held s.exitCombo = true) :
    (check_hotkeys s).1.shutdown = true ∧
    (check_hotkeys s).1.clickerAlive = false ∧
    (check_hotkeys s).1.worker =
      (if s.clickerAlive then stop_clicker s.worker else s.worker) ∧
    (check_hotkeys s).2 =
      (if s.clickerAlive then [Effect.stopClick, Effect.exitProg]
       else [Effect.exitProg]) ∧
    Effect.startClick ∉ (check_hotkeys s).2 := by
  cases ha : s.clickerAlive <;>
    simp [check_hotkeys, exit_program, hexit, ha]

/-- Witness for C3 at a concrete state whose held keys satisfy the exit
combo and the stop and start combos at once. -/
theorem c3_exit_priority_witness :
    (check_hotkeys exitPriorityState).1.shutdown = true ∧
    (check_hotkeys exitPriorityState).1.clickerAlive = false ∧
    (check_hotkeys exitPriorityState).1.worker =
      (if exitPriorityState.clickerAlive then
        stop_clicker exitPriorityState.worker
       else exitPriorityState.worker) ∧
    (check_hotkeys exitPriorityState).2 =
      (if exitPriorityState.clickerAlive then
        [Effect.stopClick, Effect.exitProg]
       else [Effect.exitProg]) ∧
    Effect.startClick ∉ (check_hotkeys exitPriorityState).2 :=
  c3_exit_priority exitPriorityState (by decide)

/-- Claim C4: after any finite sequence of press and release events the
held set contains exactly the normalized symbols whose last resolving
event was a press; a repeated press of a held key leaves the set
unchanged, and a release of a key that is not held — in particular one
never pressed — is a no-op (all handlers are total, so no error is
raised). -/
theorem c4_held_tracking :
    (∀ s0 : ListenerState, s0.held = ∅ →
      ∀ (evs : List KEvent) (v : String),
        (v ∈ (processEvents s0 evs).held ↔
          v ≠ "" ∧ lastTouch v evs = some true)) ∧
    (∀ (s : ListenerState) (k : Option PKey) (v : String),
      get_key_value k = some v → v ∈ s.held →
        (key_push s k).1.held = s.held) ∧
    (∀ (s : ListenerState) (k : Option PKey) (v : String),
      get_key_value k = some v → v ∉ s.held → key_release s k = s) := by
  refine ⟨?_, ?_, ?_⟩
  · intro s0 h0 evs v
    by_cases hv : v = ""
    · subst hv
      have hnm := empty_not_mem_processEvents evs s0 (by simp [h0])
      constructor
      · intro hmem; exact absurd hmem hnm
      · rintro ⟨hfalse, -⟩; exact absurd rfl hfalse
    · have haux := processEvents_mem_aux v hv evs s0 none (by simp [h0])
      constructor
      · intro hmem; exact ⟨hv, haux.mp hmem⟩
      · rintro ⟨-, hlast⟩; exact haux.mpr hlast
  · intro s k v hg hmem
    by_cases hv : v = ""
    · rw [key_push_held_some s k v hg, if_pos hv]
    · rw [key_push_held_some s k v hg, if_neg hv]
      exact Finset.insert_eq_self.mpr hmem
  · intro s k v hg hnm
    have he : s.held.erase v = s.held := Finset.erase_eq_self.mpr hnm
    cases k with
    | none => rfl
    | some kk => simp [key_release, hg, he]

/-- Witness for C4 at concrete inputs: one press of the character key a
from the empty held set, a repeated press of an already-held key, and a
release of a key never pressed. -/
theorem c4_held_tracking_witness :
    ("a" ∈ (processEvents idleState
        [KEvent.push (some (PKey.code (some "a")))]).held ↔
      "a" ≠ "" ∧
        lastTouch "a" [KEvent.push (some (PKey.code (some "a")))] =
          some true) ∧
    (key_push pushedState (some (PKey.code (some "a")))).1.held =
      pushedState.held ∧
    key_release idleState (some (PKey.code (some "b"))) = idleState :=
  ⟨c4_held_tracking.1 idleState rfl _ _,
   c4_held_tracking.2.1 pushedState _ "a" (by decide) (by decide),
   c4_held_tracking.2.2 idleState _ "b" (by decide) (by decide)⟩

/-- Claim C5: once the worker thread has exited, no further worker step
exists, so the click count never changes again; at the loop head with
the stop event set the only possible step is to exit (the flag is polled
before every click cycle); and a stop request on a running worker sets
the cancellation flag and joins, leaving no live worker thread. -/
theorem c5_bounded_stop :
    (∀ s s2 : WState, s.phase = WPhase.exited → WSteps s s2 →
        s2.clicks = s.clicks ∧ s2.phase = WPhase.exited) ∧
    (∀ s s2 : WState, s.phase = WPhase.top → s.stopFlag = true →
        WStep s s2 → s2 = { s with phase := WPhase.exited }) ∧
    (∀ a : ACState, a.stopSet = false → stop_clicker a = ⟨true, 0⟩) := by
  refine ⟨?_, ?_, ?_⟩
  · intro s s2 h hsteps
    have hsteps2 : Relation.ReflTransGen WStep s s2 := hsteps
    clear hsteps
    induction hsteps2 with
    | refl => exact ⟨rfl, h⟩
    | tail _ hbc ih => exact absurd ih.2 (wstep_not_exited _ _ hbc)
  · intro s s2 h hf hstep
    cases hstep <;> simp_all
  · intro a ha
    simp [stop_clicker, ha]

/-- Witness for C5: an exited worker state takes no step and keeps its
click count, a concrete poll at the loop head with the flag set exits,
and a concrete running worker is stopped and joined. -/
theorem c5_bounded_stop_witness :
    ((⟨true, WPhase.exited, 3⟩ : WState).clicks =
        (⟨true, WPhase.exited, 3⟩ : WState).clicks ∧
      (⟨true, WPhase.exited, 3⟩ : WState).phase = WPhase.exited) ∧
    (⟨true, WPhase.exited, 0⟩ : WState) =
      { (⟨true, WPhase.top, 0⟩ : WState) with phase := WPhase.exited } ∧
    stop_clicker ⟨false, 1⟩ = ⟨true, 0⟩ :=
  ⟨c5_bounded_stop.1 ⟨true, WPhase.exited, 3⟩ ⟨true, WPhase.exited, 3⟩ rfl
      Relation.ReflTransGen.refl,
   c5_bounded_stop.2.1 ⟨true, WPhase.top, 0⟩ ⟨true, WPhase.exited, 0⟩ rfl rfl
      (WStep.exitLoop ⟨true, WPhase.top, 0⟩ rfl rfl),
   c5_bounded_stop.2.2 ⟨false, 1⟩ rfl⟩

/-- Claim C6: starting twice is the same as starting once and from the
initial state yields exactly one running worker; stopping twice is the
same as stopping once, and stopping with no worker ever started is a
no-op (all operations are total functions, so there is no error and no
hang). -/
theorem c6_idempotent_start_stop :
    (∀ a : ACState, start_clicker (start_clicker a) = start_clicker a) ∧
    (start_clicker initAC).running = 1 ∧
    (start_clicker (start_clicker initAC)).running = 1 ∧
    (∀ a : ACState, stop_clicker (stop_clicker a) = stop_clicker a) ∧
    stop_clicker initAC = initAC := by
  refine ⟨?_, rfl, rfl, ?_, rfl⟩
  · intro a
    cases h : a.stopSet <;> simp [start_clicker, h]
  · intro a
    cases h : a.stopSet <;> simp [stop_clicker, h]


/-- Counterexample to C7 as stated: a press of the character key a is
resolvable and is inserted into the held set, yet the press handler
returns None to its caller, not the normalized symbol. -/
theorem c7_returns_none_counterexample :
    get_key_value (some (PKey.code (some "a"))) = some "a" ∧
    (key_push idleState (some (PKey.code (some "a")))).1.held =
      insert "a" idleState.held ∧
    (key_push idleState (some (PKey.code (some "a")))).2 ≠ some "a" := by
  refine ⟨by decide, ?_, by decide⟩
  exact key_push_held_some idleState _ "a" (by decide) |>.trans (by decide)

/-- Claim C7 as amended: for every press event with a resolvable
non-empty symbol the handler inserts the normalized symbol into the held
set but returns None (the normalized symbol is produced by the internal
helper, not returned by the handler); None keys, unresolvable keys and
empty symbols are ignored with no state change. -/
theorem c7_press_recording :
    (∀ (s : ListenerState) (k : Option PKey) (v : String),
       get_key_value k = some v → v ≠ "" →
         (key_push s k).1.held = insert v s.held ∧
           (key_push s k).2 = none) ∧
    (∀ s : ListenerState, key_push s none = (s, none)) ∧
    (∀ (s : ListenerState) (k : Option PKey),
       get_key_value k = none → key_push s k = (s, none)) ∧
    (∀ (s : ListenerState) (k : Option PKey),
       get_key_value k = some "" → key_push s k = (s, none)) := by
  refine ⟨?_, fun _ => rfl, ?_, ?_⟩
  · intro s k v hg hv
    exact ⟨(key_push_held_some s k v hg).trans (if_neg hv),
           key_push_snd s k⟩
  · intro s k hg
    cases k with
    | none => rfl
    | some kk => simp [key_push, hg]
  · intro s k hg
    cases k with
    | none => simp [get_key_value] at hg
    | some kk => simp [key_push, hg]

/-- Witness for the amended C7 at a concrete resolvable press. -/
theorem c7_press_recording_witness :
    (key_push idleState (some (PKey.code (some "b")))).1.held =
        insert "b" idleState.held ∧
      (key_push idleState (some (PKey.code (some "b")))).2 = none :=
  c7_press_recording.1 idleState _ "b" (by decide) (by decide)

/-- Claim C8 concerns the defensive rejection of an empty combo; the
source instead accepts the empty tuple in validation, the combo test
vacuously matches every held set, and with an empty exit combo the exit
branch fires on hotkey evaluation — recorded here in support of the
code-bug verdict. -/
theorem c8_empty_combo_accepted :
    validate_keys [] = Except.ok ∅ ∧
    (∀ held : Finset String, matchesCombo held ∅ = true) ∧
    (check_hotkeys emptyComboState).2 = [Effect.exitProg] ∧
    (check_hotkeys emptyComboState).1.shutdown = true := by
  refine ⟨rfl, ?_, by decide, by decide⟩
  intro held
  simp [matchesCombo]

/-- Claim C9: validation stores every accepted combo with its original
casing, and every multi-character key whose lowercased form is a
recognized key name passes validation regardless of casing — so a combo
containing an uppercase-lettered named key such as SHIFT is accepted as
written; every symbol a press event records is a lowercased string; and
hence every combo containing any symbol with an uppercase ASCII letter
never matches a held set reachable from the empty one. -/
theorem c9_uppercase_named_key :
    (∀ keyTuple : List String, (∀ k ∈ keyTuple, key_error k = none) →
       validate_keys keyTuple = Except.ok keyTuple.toFinset) ∧
    (∀ w : String, w.length ≠ 1 →
       keyNames.contains (pyLower w) = true → key_error w = none) ∧
    (∀ (k : Option PKey) (v : String),
       get_key_value k = some v → ∃ t, v = pyLower t) ∧
    (∀ w : String, hasUpperA w = true →
       ∀ (s0 : ListenerState) (evs : List KEvent) (combo : Finset String),
         s0.held = ∅ → w ∈ combo →
           matchesCombo (processEvents s0 evs).held combo = false) := by
  refine ⟨?_, ?_, get_key_value_lower, ?_⟩
  · intro keyTuple h
    unfold validate_keys
    rw [findSome_key_error_none keyTuple h]
  · intro w hlen hcon
    have hmem : pyLower w ∈ keyNames := by simpa using hcon
    simp [key_error, hlen, hmem]
  · intro w hw s0 evs combo h0 hm
    rw [Bool.eq_false_iff]
    intro htrue
    have hmem : w ∈ (processEvents s0 evs).held :=
      (matchesCombo_iff _ _).mp htrue w hm
    rcases held_lower_processEvents evs s0 w hmem with h1 | h1
    · rw [h0] at h1
      exact absurd h1 (Finset.not_mem_empty _)
    · rcases h1 with ⟨t, ht⟩
      exact pyLower_ne_of_hasUpper w hw t ht.symm

/-- Witness for C9 at the named key SHIFT: the singleton combo list
containing it validates to the original-casing set, the key passes the
per-key check, the symbol a is a lowercase image, and pressing the shift
key from the start state never matches the combo containing SHIFT. -/
theorem c9_uppercase_named_key_witness :
    validate_keys ["SHIFT"] = Except.ok (["SHIFT"].toFinset) ∧
    key_error "SHIFT" = none ∧
    (∃ t, "a" = pyLower t) ∧
    matchesCombo
      (processEvents idleState
        [KEvent.push (some (PKey.special "SHIFT"))]).held
      {"SHIFT"} = false :=
  ⟨c9_uppercase_named_key.1 ["SHIFT"] (by decide),
   c9_uppercase_named_key.2.1 "SHIFT" (by decide) (by decide),
   c9_uppercase_named_key.2.2.1 (some (PKey.special "A")) "a" (by decide),
   c9_uppercase_named_key.2.2.2 "SHIFT" (by decide) idleState
     [KEvent.push (some (PKey.special "SHIFT"))] {"SHIFT"} rfl (by decide)⟩

/-- Claim C10: the hotkey evaluation never reads the shutdown flag — for
any state, changing only the shutdown flag yields the same effects and
the same resulting held set, alive flag and worker state (the output
shutdown flag is true when the exit combo fires and the input flag
otherwise); in particular a start-combo press arriving after the exit
combo has already fired still starts the worker. -/
theorem c10_shutdown_noninterference :
    (∀ (s : ListenerState) (b : Bool),
       check_hotkeys { s with shutdown := b } =
         ({ (check_hotkeys s).1 with
             shutdown :=
               if matchesCombo s.held s.exitCombo then true else b },
          (check_hotkeys s).2)) ∧
    (∀ s : ListenerState, s.shutdown = true → s.clickerAlive = false →
       matchesCombo s.held s.exitCombo = false →
       matchesCombo s.held s.startCombo = true →
         (check_hotkeys s).2 = [Effect.startClick] ∧
         (check_hotkeys s).1.worker = start_clicker s.worker ∧
         (check_hotkeys s).1.clickerAlive = true) := by
  constructor
  · intro s b
    by_cases he : matchesCombo s.held s.exitCombo <;>
      by_cases ha : s.clickerAlive <;>
        by_cases hst : matchesCombo s.held s.stopCombo <;>
          by_cases hsa : matchesCombo s.held s.startCombo <;>
            simp [check_hotkeys, exit_program, he, ha, hst, hsa]
  · intro s _ ha he hsa
    simp [check_hotkeys, he, ha, hsa]

/-- Witness for C10 at a concrete state in which the exit combo has
already fired (shutdown flag set) and the held keys satisfy the start
combo. -/
theorem c10_shutdown_noninterference_witness :
    (check_hotkeys afterExitState).2 = [Effect.startClick] ∧
    (check_hotkeys afterExitState).1.worker =
      start_clicker afterExitState.worker ∧
    (check_hotkeys afterExitState).1.clickerAlive = true :=
  c10_shutdown_noninterference.2 afterExitState rfl rfl (by decide)
    (by decide)

end SnakePit
